import Mathlib

/-!
Verification of the geometric and interactive core of the vector graphics
editor.  The engine itself is Rust compiled to Wasm (`rust-core/`, not part
of this tree); its behaviour is modelled from the specification, while the
TypeScript layer (`src/App.tsx`, `src/components/Canvas.tsx`,
`src/components/PropertiesPanel.tsx`, `src/components/DirectSelectOverlay.tsx`,
`src/wasm/wasmLoader.ts`) is embedded directly from the source.

Scalars are modelled exactly over an arbitrary linear ordered field
(instantiated at ℚ for executable checks and at ℝ where trigonometry is
needed), standing in for the engine's f64 values.
-/

namespace VecEd

/-- A 2D point. -/
abbrev Pt (K : Type) := K × K

/-- An affine matrix of six scalars (a, b, c, d, tx, ty), canvas convention:
a point (x, y) maps to (a*x + c*y + tx, b*x + d*y + ty). -/
structure Mat (K : Type) where
  a : K
  b : K
  c : K
  d : K
  tx : K
  ty : K
deriving DecidableEq, Repr

variable {K : Type} [LinearOrderedField K]

/-- Apply a matrix to a point. -/
def transformPoint (m : Mat K) (p : Pt K) : Pt K :=
  (m.a * p.1 + m.c * p.2 + m.tx, m.b * p.1 + m.d * p.2 + m.ty)

/-- Modelled from the spec: `compose(outer, inner)` is the matrix equivalent
of applying `inner` then `outer` (matrix product outer * inner). -/
def compose (o i : Mat K) : Mat K :=
  { a := o.a * i.a + o.c * i.b
    b := o.b * i.a + o.d * i.b
    c := o.a * i.c + o.c * i.d
    d := o.b * i.c + o.d * i.d
    tx := o.a * i.tx + o.c * i.ty + o.tx
    ty := o.b * i.tx + o.d * i.ty + o.ty }

/-- Determinant ad - bc of the linear part. -/
def det (m : Mat K) : K := m.a * m.d - m.b * m.c

/-- Modelled from the spec: the policy epsilon (1e-9) below which a
determinant counts as degenerate. -/
def eps : K := 1 / 1000000000

/-- Explicit failure signals of geometry and scene operations. -/
inductive GeomError where
  | DegenerateTransform
  | NotFound
  | InvalidIndex
deriving DecidableEq, Repr

/-- Modelled from the spec: `invert(m)` fails with `DegenerateTransform`
when |determinant| < epsilon; otherwise returns the unique inverse. -/
def invert (m : Mat K) : Except GeomError (Mat K) :=
  if |det m| < eps then Except.error GeomError.DegenerateTransform
  else Except.ok
    { a := m.d / det m
      b := -m.b / det m
      c := -m.c / det m
      d := m.a / det m
      tx := (m.c * m.ty - m.d * m.tx) / det m
      ty := (m.b * m.tx - m.a * m.ty) / det m }

/-- Translation matrix. -/
def translation (dx dy : K) : Mat K := ⟨1, 0, 0, 1, dx, dy⟩

/-- Rotation matrix from given cosine and sine values. -/
def rotationMat (co si : K) : Mat K := ⟨co, si, -si, co, 0, 0⟩

/-- Modelled from the spec: `around_pivot(pivot, core)` builds
`translate(pivot) ∘ core ∘ translate(-pivot)`. -/
def aroundPivot (pivot : Pt K) (core : Mat K) : Mat K :=
  compose (translation pivot.1 pivot.2) (compose core (translation (-pivot.1) (-pivot.2)))

/-- Path commands, SVG-style. -/
inductive PathCmd (K : Type) where
  | moveTo (p : Pt K)
  | lineTo (p : Pt K)
  | cubicBezierTo (cp1 cp2 dst : Pt K)
  | closePath
deriving DecidableEq, Repr

/-- Shape geometry variants used by the editor. -/
inductive Geometry (K : Type) where
  | rectangle (w h : K)
  | ellipse (rx ry : K)
  | path (cmds : List (PathCmd K))
deriving DecidableEq, Repr

/-- Style attributes. -/
structure Style (K : Type) where
  fill : String
  stroke : String
  strokeWidth : K
deriving DecidableEq, Repr

/-- A vector object: id, geometry, transform, style. -/
structure VectorObject (K : Type) where
  id : String
  geometry : Geometry K
  transform : Mat K
  style : Style K
deriving DecidableEq, Repr

/-- A scene: ordered objects, last = frontmost. -/
abbrev Scene (K : Type) := List (VectorObject K)

/-- All defining points of a path command (anchors and control points),
used for the path bounding box. -/
def cmdPts : PathCmd K → List (Pt K)
  | PathCmd.moveTo p => [p]
  | PathCmd.lineTo p => [p]
  | PathCmd.cubicBezierTo c1 c2 q => [c1, c2, q]
  | PathCmd.closePath => []

/-- Modelled from the spec: local containment test per geometry.
Rectangle: local box [0,w]×[0,h]; ellipse: centered unit-disc test;
path: tight bounding box over all anchors and control points. -/
def localContains (g : Geometry K) (p : Pt K) : Bool :=
  match g with
  | Geometry.rectangle w h =>
      decide (0 ≤ p.1) && decide (p.1 ≤ w) && decide (0 ≤ p.2) && decide (p.2 ≤ h)
  | Geometry.ellipse rx ry =>
      decide (p.1 ^ 2 * ry ^ 2 + p.2 ^ 2 * rx ^ 2 ≤ rx ^ 2 * ry ^ 2)
  | Geometry.path cmds =>
      let pts := (cmds.map cmdPts).flatten
      decide (pts ≠ []) &&
      pts.any (fun q => decide (q.1 ≤ p.1)) && pts.any (fun q => decide (p.1 ≤ q.1)) &&
      pts.any (fun q => decide (q.2 ≤ p.2)) && pts.any (fun q => decide (p.2 ≤ q.2))

/-- Modelled from the spec: one object hit check — map the point into local
space with the inverse of the object's transform and test local containment
(a degenerate transform cannot be hit). -/
def hitObj (o : VectorObject K) (p : Pt K) : Bool :=
  match invert o.transform with
  | Except.error _ => false
  | Except.ok m => localContains o.geometry (transformPoint m p)

/-- Modelled from the spec: `hit_test(scene, point)` iterates objects from
frontmost (last) to backmost (first), returning the first match's id. -/
def hitTest (s : Scene K) (p : Pt K) : Option String :=
  (s.reverse.find? (fun o => hitObj o p)).map (fun o => o.id)

/-! ## History manager (modelled from the spec, §4.7) -/

/-- Bound on the history stacks (spec default 50). -/
def maxHistory : Nat := 50

/-- Undo and redo stacks; the head of each list is the top. -/
structure History (σ : Type) where
  undoStack : List σ
  redoStack : List σ
deriving DecidableEq, Repr

/-- Engine state as seen by the history manager: the current scene plus the
two history stacks.  `σ` is the scene representation (snapshots are full
value copies). -/
structure EngineH (σ : Type) where
  scene : σ
  hist : History σ
deriving DecidableEq, Repr

/-- Modelled from the spec: `save_snapshot()` deep-copies the current scene,
pushes it to the undo stack (evicting the oldest entry when at capacity)
and clears the redo stack. -/
def saveSnapshot {σ : Type} (e : EngineH σ) : EngineH σ :=
  { e with hist := ⟨List.take maxHistory (e.scene :: e.hist.undoStack), []⟩ }

/-- Modelled from the spec: `undo()` returns false on an empty undo stack,
else pops the top entry, pushes the current scene onto the redo stack and
replaces the current scene with the popped entry. -/
def undo {σ : Type} (e : EngineH σ) : Bool × EngineH σ :=
  match e.hist.undoStack with
  | [] => (false, e)
  | top :: rest => (true, ⟨top, ⟨rest, e.scene :: e.hist.redoStack⟩⟩)

/-- Modelled from the spec: `redo()` is symmetric to `undo()` with the two
stacks swapped. -/
def redo {σ : Type} (e : EngineH σ) : Bool × EngineH σ :=
  match e.hist.redoStack with
  | [] => (false, e)
  | top :: rest => (true, ⟨top, ⟨e.scene :: e.hist.undoStack, rest⟩⟩)

/-- Modelled from the spec: `move(obj)` as a scene mutation — replaces the
transform of the object with the given id (the concrete delta is irrelevant
to the history round-trip). -/
def moveObject (oid : String) (m : Mat K) (s : Scene K) : Scene K :=
  s.map (fun o => if o.id == oid then { o with transform := compose m o.transform } else o)

/-! ## Drag sessions (modelled from the spec, §4.4) -/

/-- Ephemeral drag session state: the anchor point and the object's
transform captured by `begin_*_drag`. -/
structure DragSession (K : Type) where
  anchor : Pt K
  originMatrix : Mat K
deriving DecidableEq, Repr

/-- Modelled from the spec: `begin_move_drag` / `begin_resize_drag` /
`begin_rotate_drag` capture `origin_matrix` (the object's transform at this
instant) and the anchor point. -/
def beginDrag (originMatrix : Mat K) (anchor : Pt K) : DragSession K :=
  ⟨anchor, originMatrix⟩

/-- Modelled from the spec: `update_*_drag(point)` recomputes the live
transform as `origin_matrix ∘ delta(anchor, point)` — always relative to the
captured origin, never onto the previous frame's matrix (the `_cur` argument
is the previous live transform and is deliberately unused).  `delta` is the
per-mode incremental transform (translation for move, pivot scale for
resize, pivot rotation for rotate). -/
def updateDrag (delta : Pt K → Pt K → Mat K) (sess : DragSession K) (p : Pt K)
    (_cur : Mat K) : Mat K :=
  compose sess.originMatrix (delta sess.anchor p)

/-- Run a whole sequence of `update_*_drag` calls, each one receiving the
live transform produced by the previous one. -/
def runDrag (delta : Pt K → Pt K → Mat K) (sess : DragSession K)
    (ps : List (Pt K)) (t0 : Mat K) : Mat K :=
  ps.foldl (fun t p => updateDrag delta sess p t) t0

/-- The move-mode delta: translate by the vector from the anchor to the
current point. -/
def moveDelta (anchor p : Pt K) : Mat K := translation (p.1 - anchor.1) (p.2 - anchor.2)

/-! ## Pen session (modelled from the spec, §4.5) -/

/-- The point-mirror of `h` about `a`: `2*a − h`. -/
def mirrorAbout (a h : Pt K) : Pt K := (2 * a.1 - h.1, 2 * a.2 - h.2)

/-- Modelled from the spec: the small motion threshold distinguishing a
quick click (straight `LineTo`) from a drag (curved `CubicBezierTo`). -/
def penMotionThreshold : K := 4

/-- Ephemeral pen session state: committed commands, the anchor of the
current press, and the optional active handle being dragged out. -/
structure PenSession (K : Type) where
  commands : List (PathCmd K)
  pressAnchor : Pt K
  activeHandle : Option (Pt K)
deriving DecidableEq, Repr

/-- Modelled from the spec: a pen press at a point records it as the anchor
of the gesture now beginning. -/
def penPress (s : PenSession K) (a : Pt K) : PenSession K :=
  { s with pressAnchor := a, activeHandle := none }

/-- Modelled from the spec: moving during the press drags out the handle. -/
def penDragMove (s : PenSession K) (h : Pt K) : PenSession K :=
  { s with activeHandle := some h }

/-- Modelled from the spec: release at `r`.  A quick release within the
motion threshold of the press anchor appends a straight `LineTo` at the
anchor; a release after a drag to handle position `h` appends
`CubicBezierTo` whose control points are the dragged handle position and
its point-mirror about the anchor (`2*anchor − handle`), symmetric control
points about the shared anchor. -/
def penRelease (s : PenSession K) (r : Pt K) : PenSession K :=
  let a := s.pressAnchor
  if (r.1 - a.1) ^ 2 + (r.2 - a.2) ^ 2 ≤ penMotionThreshold ^ 2 then
    { s with commands := s.commands ++ [PathCmd.lineTo a], activeHandle := none }
  else
    { s with
      commands := s.commands ++ [PathCmd.cubicBezierTo r (mirrorAbout a r) a]
      activeHandle := none }

/-! ## Path mutation (modelled from the spec, §4.6) -/

/-- Type tag of a flattened path point. -/
inductive PointTag where
  | move
  | line
  | control
  | curve
deriving DecidableEq, Repr

/-- The flattened anchors/handles of one command, each with its type tag:
a cubic segment contributes its two control handles then its anchor. -/
def flattenCmd : PathCmd K → List (PointTag × Pt K)
  | PathCmd.moveTo p => [(PointTag.move, p)]
  | PathCmd.lineTo p => [(PointTag.line, p)]
  | PathCmd.cubicBezierTo c1 c2 q =>
      [(PointTag.control, c1), (PointTag.control, c2), (PointTag.curve, q)]
  | PathCmd.closePath => []

/-- Flattened point list of a whole command sequence. -/
def pathPoints (cmds : List (PathCmd K)) : List (PointTag × Pt K) :=
  (cmds.map flattenCmd).flatten

/-- Modelled from the spec: `get_path_points(id)` returns the flattened
anchors/handles with type tags; an empty list (not an error) for a non-path
shape or an unknown id. -/
def getPathPoints (s : Scene K) (oid : String) : List (PointTag × Pt K) :=
  match s.find? (fun o => o.id == oid) with
  | none => []
  | some o =>
      match o.geometry with
      | Geometry.path cmds => pathPoints cmds
      | _ => []

/-- Replace the `i`-th flattened point of a single command. -/
def setPointInCmd (c : PathCmd K) (i : Nat) (q : Pt K) : PathCmd K :=
  match c, i with
  | PathCmd.moveTo _, 0 => PathCmd.moveTo q
  | PathCmd.lineTo _, 0 => PathCmd.lineTo q
  | PathCmd.cubicBezierTo _ c2 t, 0 => PathCmd.cubicBezierTo q c2 t
  | PathCmd.cubicBezierTo c1 _ t, 1 => PathCmd.cubicBezierTo c1 q t
  | PathCmd.cubicBezierTo c1 c2 _, 2 => PathCmd.cubicBezierTo c1 c2 q
  | c0, _ => c0

/-- Replace the `i`-th flattened point across a command sequence; `none`
when the index is out of range. -/
def updateCmds : List (PathCmd K) → Nat → Pt K → Option (List (PathCmd K))
  | [], _, _ => none
  | c :: rest, i, q =>
      if i < (flattenCmd c).length then some (setPointInCmd c i q :: rest)
      else (updateCmds rest (i - (flattenCmd c).length) q).map (fun l => c :: l)

/-- Modelled from the spec: `update_path_point(id, index, new_position)`
mutates the anchor or handle at `index` in place; fails with `InvalidIndex`
(scene left unmodified) when the index is out of range, with `NotFound` for
an unknown id. -/
def updatePathPoint (s : Scene K) (oid : String) (i : Nat) (q : Pt K) :
    Scene K × Option GeomError :=
  match s.find? (fun o => o.id == oid) with
  | none => (s, some GeomError.NotFound)
  | some o =>
      match o.geometry with
      | Geometry.path cmds =>
          match updateCmds cmds i q with
          | none => (s, some GeomError.InvalidIndex)
          | some cmds2 =>
              (s.map (fun o2 =>
                if o2.id == oid then { o2 with geometry := Geometry.path cmds2 } else o2),
               none)
      | _ => (s, some GeomError.InvalidIndex)

/-! ## TypeScript layer: handler call traces (src/components, src/App.tsx)

Each handler of the React layer issues a straight-line sequence of calls
into the engine.  The traces below transcribe those sequences from the
source; branch conditions that depend on engine answers (selection state,
handle distances, hit results) are taken as parameters. -/

/-- The engine calls a handler can issue. -/
inductive ECall (K : Type) where
  | save_snapshot
  | update_style (fill stroke : String) (w : K)
  | bring_to_front
  | send_to_back
  | begin_move_drag (p : Pt K)
  | begin_resize_drag (p : Pt K) (i : Nat)
  | begin_rotate_drag (p : Pt K)
  | add_rectangle (x y w h : K)
  | add_ellipse (cx cy rx ry : K)
  | pen_down (p : Pt K)
  | pen_close
  | pen_finish
  | select_at (p : Pt K)
  | end_drag
  | update_path_point (oid : String) (i : Nat) (p : Pt K)
deriving DecidableEq, Repr

/-- A call is destructive when it mutates the scene (adding a shape,
changing style, reordering z-order, beginning a drag, committing a pen
path, editing a path point); selection queries, pen anchor placement and
`end_drag` are not. -/
def destructive : ECall K → Bool
  | ECall.update_style _ _ _ => true
  | ECall.bring_to_front => true
  | ECall.send_to_back => true
  | ECall.begin_move_drag _ => true
  | ECall.begin_resize_drag _ _ => true
  | ECall.begin_rotate_drag _ => true
  | ECall.add_rectangle _ _ _ _ => true
  | ECall.add_ellipse _ _ _ _ => true
  | ECall.pen_close => true
  | ECall.pen_finish => true
  | ECall.update_path_point _ _ _ => true
  | _ => false

/-- The claim's discipline over a trace: every destructive call is preceded
by some earlier `save_snapshot` in the same handler invocation. -/
def snapshotDiscipline (t : List (ECall K)) : Prop :=
  ∀ i : Fin t.length, destructive (t.get i) = true →
    ∃ j : Fin t.length, j.val < i.val ∧ t.get j = ECall.save_snapshot

instance (t : List (ECall K)) : Decidable (snapshotDiscipline t) :=
  inferInstanceAs (Decidable (∀ i : Fin t.length, destructive (t.get i) = true →
    ∃ j : Fin t.length, j.val < i.val ∧ t.get j = ECall.save_snapshot))

/-- From `PropertiesPanel.tsx` `handleFillChange`: calls
`editor.update_style(newFill, stroke, width)` and re-renders. -/
def handleFillChange (newFill curStroke : String) (curW : K) : List (ECall K) :=
  [ECall.update_style newFill curStroke curW]

/-- From `PropertiesPanel.tsx` `handleStrokeChange`. -/
def handleStrokeChange (curFill newStroke : String) (curW : K) : List (ECall K) :=
  [ECall.update_style curFill newStroke curW]

/-- From `PropertiesPanel.tsx` `handleBringToFront`: calls
`editor.bring_to_front()` and re-renders. -/
def handleBringToFront : List (ECall K) :=
  [ECall.bring_to_front]

/-- From `PropertiesPanel.tsx` `handleSendToBack`. -/
def handleSendToBack : List (ECall K) :=
  [ECall.send_to_back]

/-- From `DirectSelectOverlay.tsx` `handlePointerDown` then a sequence of
`handlePointerMove` events: one `save_snapshot` at gesture start, then an
`update_path_point` per move. -/
def directSelectDrag (oid : String) (i : Nat) (moves : List (Pt K)) : List (ECall K) :=
  ECall.save_snapshot :: moves.map (fun p => ECall.update_path_point oid i p)

/-- From `Canvas.tsx` keydown handler: Enter with the pen tool drawing. -/
def penEnterFinish : List (ECall K) :=
  [ECall.save_snapshot, ECall.pen_finish]

/-! ## Canvas.tsx `handleMouseDown`, select branch -/

/-- Drag modes started by the select tool. -/
inductive DragMode where
  | move
  | resize (i : Nat)
  | rotate
deriving DecidableEq, Repr

/-- Squared distance between two points (the source compares
`Math.sqrt(dx^2 + dy^2) ≤ r`; we compare squares against `r^2`, which is
equivalent for `r ≥ 0`). -/
def dist2 (p q : Pt K) : K := (p.1 - q.1) ^ 2 + (p.2 - q.2) ^ 2

/-- The source constant `HANDLE_HIT_RADIUS = 12` — inner radius for resize. -/
def handleHitRadius : K := 12

/-- The source constant `ROTATION_OUTER_RADIUS = 25` — outer radius for the rotation zone. -/
def rotationOuter : K := 25

/-- The `for` loop of `Canvas.tsx` `handleMouseDown`: scan the handles in
index order; at the first handle within the rotation outer radius decide —
resize when within the inner radius, else rotate. -/
def scanHandles (hs : List (Pt K)) (k : Nat) (p : Pt K) : Option DragMode :=
  match hs with
  | [] => none
  | h :: rest =>
      if dist2 p h ≤ handleHitRadius ^ 2 then some (DragMode.resize k)
      else if dist2 p h ≤ rotationOuter ^ 2 then some DragMode.rotate
      else scanHandles rest (k + 1) p

/-- From `Canvas.tsx` `handleMouseDown` with the select tool and a selection:
the handle scan runs only when exactly 4 handle positions were parsed;
otherwise, a body hit (`select_at` returning an id) begins a move drag. -/
def chooseDragMode (hs : List (Pt K)) (p : Pt K) (bodyHit : Bool) : Option DragMode :=
  match (if hs.length = 4 then scanHandles hs 0 p else none) with
  | some m => some m
  | none => if bodyHit then some DragMode.move else none

/-- Call trace of `Canvas.tsx` `handleMouseDown` with the select tool:
resize/rotate zones snapshot then begin the corresponding drag; a body hit
selects, snapshots and begins a move drag; a miss only deselects. -/
def selectMouseDown (hasSel : Bool) (hs : List (Pt K)) (p : Pt K)
    (selResult : Option String) : List (ECall K) :=
  match (if hasSel then (if hs.length = 4 then scanHandles hs 0 p else none) else none) with
  | some (DragMode.resize i) => [ECall.save_snapshot, ECall.begin_resize_drag p i]
  | some DragMode.rotate => [ECall.save_snapshot, ECall.begin_rotate_drag p]
  | _ =>
      match selResult with
      | some _ => [ECall.select_at p, ECall.save_snapshot, ECall.begin_move_drag p]
      | none => [ECall.select_at p]

/-- Call trace of `Canvas.tsx` `handleMouseDown` with the rectangle tool. -/
def rectToolMouseDown (x y : K) : List (ECall K) :=
  [ECall.save_snapshot, ECall.add_rectangle (x - 50) (y - 30) 100 60]

/-- Call trace of `Canvas.tsx` `handleMouseDown` with the ellipse tool. -/
def ellipseToolMouseDown (x y : K) : List (ECall K) :=
  [ECall.save_snapshot, ECall.add_ellipse x y 50 35]

/-- Call trace of `Canvas.tsx` `handleMouseDown` with the pen tool:
`pen_down` first; when it answers that the path should close, snapshot and
commit via `pen_close`. -/
def penToolMouseDown (p : Pt K) (shouldClose : Bool) : List (ECall K) :=
  if shouldClose then [ECall.pen_down p, ECall.save_snapshot, ECall.pen_close]
  else [ECall.pen_down p]

/-- Call trace of `Canvas.tsx` `handleMouseDown` with the direct-select
tool: a pure selection change, no snapshot. -/
def directSelectMouseDown (p : Pt K) : List (ECall K) :=
  [ECall.select_at p]

/-! ## wasmLoader.ts module state (src/wasm/wasmLoader.ts) -/

/-- The module-level state of `wasmLoader.ts`: the init flag, the singleton
editor instance (identified by a numeric handle; `none` when freed) and the
demo-shapes flag.  `nextId` distinguishes successive `new Editor()`
allocations. -/
structure WasmState where
  wasmInitialized : Bool
  editorInstance : Option Nat
  demoShapesAdded : Bool
  nextId : Nat
deriving DecidableEq, Repr

/-- From the source: `initWasm()` (idempotent: returns early when already initialized). -/
def initWasm (st : WasmState) : WasmState :=
  if st.wasmInitialized then st else { st with wasmInitialized := true }

/-- From the source: `createEditor()` throws before `initWasm` has succeeded; otherwise it
returns the existing module-level instance, creating it on the first call. -/
def createEditor (st : WasmState) : Except String (Nat × WasmState) :=
  if st.wasmInitialized = false then
    Except.error ("Wasm module not initialized. Call initWasm() first.")
  else
    match st.editorInstance with
    | some e => Except.ok (e, st)
    | none =>
        Except.ok (st.nextId,
          { st with editorInstance := some st.nextId, nextId := st.nextId + 1 })

/-- From the source: `resetEditor()` frees the instance and clears the demo-shapes flag. -/
def resetEditor (st : WasmState) : WasmState :=
  { st with editorInstance := none, demoShapesAdded := false }

/-! ## Concrete instances used by the claims -/

/-- The default style of the demo shapes. -/
def defaultStyle : Style K := ⟨"#3b82f6", "#1e40af", 2⟩

/-- Modelled from the spec: the demo shape of `App.tsx`
`editor.add_rotated_rectangle(cx, cy, w, h, deg)` — a w×h rectangle whose
local box `[0,w]×[0,h]` is translated so that its center sits at `(cx, cy)`
and which is then rotated by `deg` degrees about that center. -/
noncomputable def addRotatedRectangle (cx cy w h deg : ℝ) : VectorObject ℝ :=
  { id := "B"
    geometry := Geometry.rectangle w h
    transform :=
      compose
        (aroundPivot (cx, cy)
          (rotationMat (Real.cos (deg * Real.pi / 180)) (Real.sin (deg * Real.pi / 180))))
        (translation (cx - w / 2) (cy - h / 2))
    style := defaultStyle }

/-- The 150×100 rectangle rotated 45° about its own center (450, 250)
(`App.tsx` test shape B). -/
noncomputable def rotRect : VectorObject ℝ := addRotatedRectangle 450 250 150 100 45

/-- A large uniform scaling: determinant 10^10, far from degenerate. -/
def bigM : Mat ℚ := ⟨100000, 0, 0, 100000, 0, 0⟩

/-- The inverse of `bigM`: determinant 10^-10, below the policy epsilon. -/
def bigMInv : Mat ℚ := ⟨1 / 100000, 0, 0, 1 / 100000, 0, 0⟩

/-- A `save_snapshot()` followed by a move of one object — the sequence of
the history round-trip property. -/
def snapshotThenMove (e : EngineH (Scene K)) (oid : String) (m : Mat K) :
    EngineH (Scene K) :=
  ⟨moveObject oid m (saveSnapshot e).scene, (saveSnapshot e).hist⟩

/-- Iterate `undo`, keeping only the resulting state. -/
def undoIter {σ : Type} : Nat → EngineH σ → EngineH σ
  | 0, e => e
  | n + 1, e => undoIter n (undo e).2

/-- Fifty-one destructive operations, each preceded by `save_snapshot()`: step `n`
snapshots and then replaces the scene with `n + 1` (scenes are labelled by
naturals; the initial scene is `0`). -/
def c6Run : EngineH Nat :=
  (List.range 51).foldl (fun e n => ⟨n + 1, (saveSnapshot e).hist⟩) ⟨0, ⟨[], []⟩⟩

/-- The operations touching the history: a snapshot, a destructive scene
mutation (which does not touch the stacks), an undo, a redo. -/
inductive HistOp (σ : Type) where
  | snapshot
  | mutate (s2 : σ)
  | undoOp
  | redoOp

/-- Apply one history-touching operation. -/
def applyHistOp {σ : Type} (e : EngineH σ) : HistOp σ → EngineH σ
  | HistOp.snapshot => saveSnapshot e
  | HistOp.mutate s2 => { e with scene := s2 }
  | HistOp.undoOp => (undo e).2
  | HistOp.redoOp => (redo e).2

/-! ## Theorems -/

/-- C10: after `initWasm` has succeeded, every `createEditor` call returns
the single module-level instance — the first call creates it, later calls
return exactly it with the module state unchanged — until `resetEditor`
frees it; before `initWasm` succeeds, `createEditor` throws.  Hence two
coexisting independent editor instances cannot be obtained. -/
theorem c10_createEditor_singleton :
    (∀ st : WasmState, st.wasmInitialized = false →
      createEditor st = Except.error ("Wasm module not initialized. Call initWasm() first.")) ∧
    (∀ (st : WasmState) (e : Nat), st.wasmInitialized = true → st.editorInstance = some e →
      createEditor st = Except.ok (e, st)) ∧
    (∀ (st st1 : WasmState) (e : Nat), st.wasmInitialized = true →
      createEditor st = Except.ok (e, st1) → createEditor st1 = Except.ok (e, st1)) ∧
    (∀ st : WasmState, (resetEditor st).editorInstance = none) := by
  refine ⟨?_, ?_, ?_, fun st => rfl⟩
  · intro st h
    simp [createEditor, h]
  · intro st e h1 h2
    simp [createEditor, h1, h2]
  · intro st st1 e h1 h2
    revert h2
    simp only [createEditor, h1]
    cases hinst : st.editorInstance with
    | some e0 =>
        intro h2
        obtain ⟨he, hst⟩ : e0 = e ∧ st = st1 := by simpa using h2
        subst hst
        subst he
        simp [createEditor, h1, hinst]
    | none =>
        intro h2
        obtain ⟨he, hst⟩ :
            st.nextId = e ∧
              ({ wasmInitialized := true, editorInstance := some st.nextId,
                 demoShapesAdded := st.demoShapesAdded, nextId := st.nextId + 1 } :
                WasmState) = st1 := by
          simpa using h2
        subst hst
        subst he
        simp [createEditor]

/-- C10 witness: concrete module states — not initialized: throws;
initialized with an existing instance: returns it unchanged; first call
creates, second call returns the same instance. -/
theorem c10_createEditor_singleton_witness :
    createEditor ⟨false, none, false, 0⟩ =
      Except.error ("Wasm module not initialized. Call initWasm() first.") ∧
    createEditor ⟨true, some 5, false, 6⟩ = Except.ok (5, ⟨true, some 5, false, 6⟩) ∧
    createEditor ⟨true, some 0, false, 1⟩ = Except.ok (0, ⟨true, some 0, false, 1⟩) :=
  ⟨c10_createEditor_singleton.1 ⟨false, none, false, 0⟩ rfl,
   c10_createEditor_singleton.2.1 ⟨true, some 5, false, 6⟩ 5 rfl rfl,
   c10_createEditor_singleton.2.2.1 ⟨true, none, false, 0⟩ ⟨true, some 0, false, 1⟩ 0 rfl
     rfl⟩

/-- C4: during a drag session begun by a `begin_*_drag` (capturing the
origin matrix and the anchor), after any sequence of update calls the live
transform is `origin_matrix ∘ delta(anchor, p)` for the last point `p`
alone — independent of the intermediate points and of the transform the
session started from, never accumulating the previous frame's matrix.
Stated for an arbitrary per-mode `delta` and instantiated for the move
delta. -/
theorem c4_update_drag_relative_to_origin :
    ∀ (delta : Pt K → Pt K → Mat K) (m : Mat K) (a : Pt K) (ps : List (Pt K)) (p : Pt K)
      (t0 : Mat K),
      runDrag delta (beginDrag m a) (ps ++ [p]) t0 = compose m (delta a p) ∧
      runDrag moveDelta (beginDrag m a) (ps ++ [p]) t0 =
        compose m (translation (p.1 - a.1) (p.2 - a.2)) := by
  intro delta m a ps p t0
  constructor
  · simp [runDrag, List.foldl_append, updateDrag, beginDrag]
  · simp [runDrag, List.foldl_append, updateDrag, beginDrag, moveDelta]

/-- C5: a pen press at anchor `a`, a drag to handle position `h` (beyond
the motion threshold) and a release append a `CubicBezierTo` whose control
points are the dragged handle position `h` and its point-mirror about the
anchor `2*a − h`; the two control points are symmetric about the shared
anchor (their midpoint is the anchor). -/
theorem c5_pen_drag_symmetric_controls :
    ∀ (s : PenSession K) (a h : Pt K),
      ¬((h.1 - a.1) ^ 2 + (h.2 - a.2) ^ 2 ≤ penMotionThreshold ^ 2) →
      (penRelease (penDragMove (penPress s a) h) h).commands =
        s.commands ++ [PathCmd.cubicBezierTo h (mirrorAbout a h) a] ∧
      (h.1 + (mirrorAbout a h).1) / 2 = a.1 ∧ (h.2 + (mirrorAbout a h).2) / 2 = a.2 := by
  intro s a h hfar
  refine ⟨?_, ?_, ?_⟩
  · simp [penRelease, penDragMove, penPress, if_neg hfar]
  · simp [mirrorAbout]
  · simp [mirrorAbout]

/-- C5 witness: a drag from anchor (0,0) to handle (10,0) over ℚ. -/
theorem c5_pen_drag_symmetric_controls_witness :
    ¬((10 - 0 : ℚ) ^ 2 + (0 - 0 : ℚ) ^ 2 ≤ penMotionThreshold ^ 2) ∧
    ((penRelease (penDragMove (penPress (⟨[], (0, 0), none⟩ : PenSession ℚ) (0, 0)) (10, 0))
        (10, 0)).commands =
      [] ++ [PathCmd.cubicBezierTo ((10 : ℚ), 0) (mirrorAbout (0, 0) (10, 0)) (0, 0)] ∧
      (((10 : ℚ) + (mirrorAbout ((0 : ℚ), 0) (10, 0)).1) / 2 = 0 ∧
       ((0 : ℚ) + (mirrorAbout ((0 : ℚ), 0) (10, 0)).2) / 2 = 0)) :=
  ⟨by norm_num [penMotionThreshold],
   c5_pen_drag_symmetric_controls ⟨[], (0, 0), none⟩ (0, 0) (10, 0)
     (by norm_num [penMotionThreshold])⟩

/-- C3: the claim demands that every destructive mutation issued through
the editor's public entry points is preceded by `save_snapshot` in the same
handler.  The code violates this: `PropertiesPanel.handleFillChange` (and
the z-order handlers) call `update_style` / `bring_to_front` with no
`save_snapshot` anywhere in the handler — while the Canvas handlers do obey
the discipline and selection-only handlers never snapshot. -/
theorem c3_snapshot_discipline_violated :
    handleFillChange ("#ff0000") ("#1e40af") (2 : ℚ) =
      [ECall.update_style ("#ff0000") ("#1e40af") 2] ∧
    destructive (ECall.update_style ("#ff0000") ("#1e40af") (2 : ℚ)) = true ∧
    ¬ snapshotDiscipline (handleFillChange ("#ff0000") ("#1e40af") (2 : ℚ)) ∧
    ¬ snapshotDiscipline (handleBringToFront (K := ℚ)) ∧
    ¬ snapshotDiscipline (handleSendToBack (K := ℚ)) ∧
    snapshotDiscipline (rectToolMouseDown (60 : ℚ) 40) ∧
    snapshotDiscipline (ellipseToolMouseDown (60 : ℚ) 40) ∧
    snapshotDiscipline (penToolMouseDown ((5 : ℚ), 5) true) ∧
    snapshotDiscipline (penEnterFinish (K := ℚ)) ∧
    snapshotDiscipline (selectMouseDown false [] ((5 : ℚ), 5) (some ("A"))) ∧
    ECall.save_snapshot ∉ directSelectMouseDown ((5 : ℚ), 5) ∧
    ECall.save_snapshot ∉ selectMouseDown false [] ((5 : ℚ), 5) none := by
  refine ⟨rfl, rfl, ?_, ?_, ?_, ?_, ?_, ?_, ?_, ?_, ?_, ?_⟩ <;> decide

/-- Pushing onto the bounded undo stack keeps the newest entry and at most
`maxHistory - 1` older ones. -/
theorem take_maxHistory_cons {σ : Type} (x : σ) (l : List σ) :
    List.take maxHistory (x :: l) = x :: List.take 49 l := rfl

/-- C2: `undo()` returns false and leaves the state unchanged on an empty
undo stack; otherwise it pops the top entry, pushes the current scene onto
the redo stack, replaces the scene with the popped entry and returns true;
`redo()` is symmetric with the stacks swapped; and the sequence
`save_snapshot(); move(obj); undo()` restores the pre-move scene exactly
(transforms bit-equal), while a subsequent `redo()` restores the moved
scene exactly. -/
theorem c2_undo_redo :
    (∀ e : EngineH (Scene K), e.hist.undoStack = [] → undo e = (false, e)) ∧
    (∀ (e : EngineH (Scene K)) (top : Scene K) (rest : List (Scene K)),
      e.hist.undoStack = top :: rest →
      undo e = (true, ⟨top, ⟨rest, e.scene :: e.hist.redoStack⟩⟩)) ∧
    (∀ e : EngineH (Scene K), e.hist.redoStack = [] → redo e = (false, e)) ∧
    (∀ (e : EngineH (Scene K)) (top : Scene K) (rest : List (Scene K)),
      e.hist.redoStack = top :: rest →
      redo e = (true, ⟨top, ⟨e.scene :: e.hist.undoStack, rest⟩⟩)) ∧
    (∀ (e : EngineH (Scene K)) (oid : String) (m : Mat K),
      (undo (snapshotThenMove e oid m)).1 = true ∧
      (undo (snapshotThenMove e oid m)).2.scene = e.scene ∧
      (redo (undo (snapshotThenMove e oid m)).2).1 = true ∧
      (redo (undo (snapshotThenMove e oid m)).2).2.scene = moveObject oid m e.scene) := by
  refine ⟨?_, ?_, ?_, ?_, ?_⟩
  · intro e h
    simp [undo, h]
  · intro e top rest h
    simp [undo, h]
  · intro e h
    simp [redo, h]
  · intro e top rest h
    simp [redo, h]
  · intro e oid m
    refine ⟨?_, ?_, ?_, ?_⟩ <;>
      simp [snapshotThenMove, saveSnapshot, undo, redo, take_maxHistory_cons]

/-- C2 witness: a one-object scene over ℚ — the empty-stack case, the pop
case, and the snapshot/move/undo/redo round-trip at a concrete object. -/
theorem c2_undo_redo_witness :
    undo (⟨[], ⟨[], []⟩⟩ : EngineH (Scene ℚ)) = (false, ⟨[], ⟨[], []⟩⟩) ∧
    (undo
      (⟨[⟨"A", Geometry.rectangle 10 10, translation 5 5, defaultStyle⟩], ⟨[[]], []⟩⟩ :
        EngineH (Scene ℚ))) =
      (true, ⟨[], ⟨[], [[⟨"A", Geometry.rectangle 10 10, translation 5 5, defaultStyle⟩]]⟩⟩) ∧
    (undo (snapshotThenMove
        (⟨[⟨"A", Geometry.rectangle 10 10, translation 5 5, defaultStyle⟩], ⟨[], []⟩⟩ :
          EngineH (Scene ℚ)) ("A") (translation 1 2))).2.scene =
      [⟨"A", Geometry.rectangle 10 10, translation 5 5, defaultStyle⟩] ∧
    (redo (undo (snapshotThenMove
        (⟨[⟨"A", Geometry.rectangle 10 10, translation 5 5, defaultStyle⟩], ⟨[], []⟩⟩ :
          EngineH (Scene ℚ)) ("A") (translation 1 2))).2).2.scene =
      moveObject ("A") (translation 1 2)
        [⟨"A", Geometry.rectangle 10 10, translation 5 5, defaultStyle⟩] :=
  ⟨c2_undo_redo.1 ⟨[], ⟨[], []⟩⟩ rfl,
   c2_undo_redo.2.1 _ [] [] rfl,
   (c2_undo_redo.2.2.2.2 _ ("A") (translation 1 2)).2.1,
   (c2_undo_redo.2.2.2.2 _ ("A") (translation 1 2)).2.2.2⟩

/-- Iterated `undo` consumes exactly the undo stack. -/
theorem undoIter_exhausts {σ : Type} :
    ∀ (l : List σ) (e : EngineH σ), e.hist.undoStack = l →
      (undoIter l.length e).hist.undoStack = [] := by
  intro l
  induction l with
  | nil => intro e h; simpa [undoIter] using h
  | cons x xs ih =>
      intro e h
      have hstep : (undo e).2.hist.undoStack = xs := by
        simp [undo, h]
      simpa [undoIter] using ih (undo e).2 hstep

/-- C6: the undo stack is bounded by `max_size` (50): `save_snapshot` on a
full stack evicts the oldest entry before pushing and always empties the
redo stack; the combined stack size is an invariant of all three
operations, so the undo stack never exceeds the bound; and after 51
destructive operations each preceded by `save_snapshot`, the oldest
snapshot (scene `0`) is no longer on the stack, and once the bounded stack
has been exhausted by undos, `undo` returns false. -/
theorem c6_bounded_history :
    (∀ e : EngineH (Scene K),
      (saveSnapshot e).hist.undoStack.length ≤ maxHistory ∧
      (saveSnapshot e).hist.redoStack = []) ∧
    (∀ e : EngineH (Scene K), e.hist.undoStack.length = maxHistory →
      (saveSnapshot e).hist.undoStack = e.scene :: e.hist.undoStack.dropLast) ∧
    (∀ e : EngineH (Scene K),
      e.hist.undoStack.length + e.hist.redoStack.length ≤ maxHistory →
      (saveSnapshot e).hist.undoStack.length + (saveSnapshot e).hist.redoStack.length ≤
          maxHistory ∧
      (undo e).2.hist.undoStack.length + (undo e).2.hist.redoStack.length ≤ maxHistory ∧
      (redo e).2.hist.undoStack.length + (redo e).2.hist.redoStack.length ≤ maxHistory) ∧
    (∀ e : EngineH (Scene K), (undo (undoIter e.hist.undoStack.length e)).1 = false) ∧
    (∀ (ops : List (HistOp (Scene K))) (s0 : Scene K),
      (ops.foldl applyHistOp ⟨s0, ⟨[], []⟩⟩).hist.undoStack.length ≤ maxHistory) ∧
    ((0 : Nat) ∉ c6Run.hist.undoStack ∧
      c6Run.hist.undoStack.length = maxHistory ∧
      (undo (undoIter maxHistory c6Run)).1 = false) := by
  have hinv : ∀ (ops : List (HistOp (Scene K))) (e : EngineH (Scene K)),
      e.hist.undoStack.length + e.hist.redoStack.length ≤ maxHistory →
      (ops.foldl applyHistOp e).hist.undoStack.length +
        (ops.foldl applyHistOp e).hist.redoStack.length ≤ maxHistory := by
    intro ops
    induction ops with
    | nil => intro e h; exact h
    | cons op rest ih =>
        intro e h
        rw [List.foldl_cons]
        refine ih (applyHistOp e op) ?_
        cases op with
        | snapshot =>
            have := List.length_take_le maxHistory (e.scene :: e.hist.undoStack)
            simp only [applyHistOp, saveSnapshot, List.length_nil]
            omega
        | mutate s2 => exact h
        | undoOp =>
            cases hu : e.hist.undoStack with
            | nil => simpa [applyHistOp, undo, hu] using h
            | cons x xs =>
                rw [hu] at h
                simp only [List.length_cons] at h
                simp [applyHistOp, undo, hu]
                omega
        | redoOp =>
            cases hr : e.hist.redoStack with
            | nil => simpa [applyHistOp, redo, hr] using h
            | cons x xs =>
                rw [hr] at h
                simp only [List.length_cons] at h
                simp [applyHistOp, redo, hr]
                omega
  refine ⟨?_, ?_, ?_, ?_, ?_, ?_⟩
  · intro e
    exact ⟨by simpa [saveSnapshot] using List.length_take_le maxHistory _, rfl⟩
  · intro e h
    have h49 : List.take 49 e.hist.undoStack = e.hist.undoStack.dropLast := by
      have : e.hist.undoStack.dropLast = List.take 49 e.hist.undoStack := by
        rw [List.dropLast_eq_take, h]
        rfl
      exact this.symm
    simp [saveSnapshot, take_maxHistory_cons, h49]
  · intro e h
    refine ⟨?_, ?_, ?_⟩
    · have := List.length_take_le maxHistory (e.scene :: e.hist.undoStack)
      simp only [saveSnapshot, List.length_nil]
      omega
    · cases hu : e.hist.undoStack with
      | nil => simpa [undo, hu] using h
      | cons x xs =>
          rw [hu] at h
          simp only [List.length_cons] at h
          simp [undo, hu]
          omega
    · cases hr : e.hist.redoStack with
      | nil => simpa [redo, hr] using h
      | cons x xs =>
          rw [hr] at h
          simp only [List.length_cons] at h
          simp [redo, hr]
          omega
  · intro e
    have h := undoIter_exhausts e.hist.undoStack e rfl
    simp [undo, h]
  · intro ops s0
    have h := hinv ops ⟨s0, ⟨[], []⟩⟩ (by simp [maxHistory])
    omega
  · set_option maxRecDepth 4000 in decide

/-- C6 witness: a full stack of 50 empty scenes over ℚ — the snapshot
evicts the oldest entry, keeps the bound and clears the redo stack. -/
theorem c6_bounded_history_witness :
    (List.replicate maxHistory ([] : Scene ℚ)).length = maxHistory ∧
    (saveSnapshot (⟨[], ⟨List.replicate maxHistory ([] : Scene ℚ), []⟩⟩ :
        EngineH (Scene ℚ))).hist.undoStack =
      [] :: (List.replicate maxHistory ([] : Scene ℚ)).dropLast ∧
    (saveSnapshot (⟨[], ⟨List.replicate maxHistory ([] : Scene ℚ), []⟩⟩ :
        EngineH (Scene ℚ))).hist.undoStack.length ≤ maxHistory ∧
    (undo (undoIter
      (⟨[], ⟨[[]], []⟩⟩ : EngineH (Scene ℚ)).hist.undoStack.length
      (⟨[], ⟨[[]], []⟩⟩ : EngineH (Scene ℚ)))).1 = false :=
  ⟨by decide,
   c6_bounded_history.2.1 ⟨[], ⟨List.replicate maxHistory [], []⟩⟩ (by decide),
   (c6_bounded_history.1 ⟨[], ⟨List.replicate maxHistory [], []⟩⟩).1,
   c6_bounded_history.2.2.2.1 ⟨[], ⟨[[]], []⟩⟩⟩

/-- A point outside a handle's rotation zone is also outside its resize
zone (the inner radius 12 is below the outer radius 25). -/
theorem notInner_of_notOuter {d : K} (h : ¬ d ≤ rotationOuter ^ 2) :
    ¬ d ≤ handleHitRadius ^ 2 := by
  intro h2
  apply h
  have : (handleHitRadius : K) ^ 2 ≤ rotationOuter ^ 2 := by
    norm_num [handleHitRadius, rotationOuter]
  linarith

/-- C7 counterexample: with the selected object's corner handles at
(0,0), (20,0), (20,20), (0,20) — a small 20×20 bounding box — a press at
(18,0) is within the inner (resize) radius of handle 1, yet the code picks
the rotate zone of handle 0, which it scans first; so "within inner_radius
of a handle → resize on that handle" fails as stated. -/
theorem c7_counterexample :
    dist2 ((18 : ℚ), 0) (20, 0) ≤ handleHitRadius ^ 2 ∧
    chooseDragMode [((0 : ℚ), 0), (20, 0), (20, 20), (0, 20)] (18, 0) true =
      some DragMode.rotate ∧
    some DragMode.rotate ≠ some (DragMode.resize 1) := by
  refine ⟨by norm_num [dist2, handleHitRadius], ?_, by simp⟩
  norm_num [chooseDragMode, scanHandles, dist2, handleHitRadius, rotationOuter]

/-- C7 (amended): the handles are scanned in index order and the first
handle whose distance is within the outer radius decides the mode — resize
on that handle when within the inner radius, rotate otherwise; when no
handle is within the outer radius, a body hit begins a move drag and a miss
does nothing.  (Distances are compared squared; the source compares
`sqrt(d) ≤ r`, equivalent for `r ≥ 0`.) -/
theorem c7_first_handle_decides :
    (∀ (hs : List (Pt K)) (k : Nat) (p : Pt K) (i : Nat) (h : Pt K),
      hs.get? i = some h →
      (∀ (j : Nat) (h2 : Pt K), j < i → hs.get? j = some h2 →
        ¬ dist2 p h2 ≤ rotationOuter ^ 2) →
      ((dist2 p h ≤ handleHitRadius ^ 2 →
          scanHandles hs k p = some (DragMode.resize (k + i))) ∧
       (¬ dist2 p h ≤ handleHitRadius ^ 2 → dist2 p h ≤ rotationOuter ^ 2 →
          scanHandles hs k p = some DragMode.rotate))) ∧
    (∀ (hs : List (Pt K)) (p : Pt K),
      (∀ h ∈ hs, ¬ dist2 p h ≤ rotationOuter ^ 2) → scanHandles hs 0 p = none) ∧
    (∀ (hs : List (Pt K)) (p : Pt K) (bodyHit : Bool),
      (∀ h ∈ hs, ¬ dist2 p h ≤ rotationOuter ^ 2) →
      chooseDragMode hs p bodyHit = if bodyHit then some DragMode.move else none) := by
  have hnone : ∀ (hs : List (Pt K)) (k : Nat) (p : Pt K),
      (∀ h ∈ hs, ¬ dist2 p h ≤ rotationOuter ^ 2) → scanHandles hs k p = none := by
    intro hs
    induction hs with
    | nil => intro k p _; rfl
    | cons h0 rest ih =>
        intro k p hall
        have h0out := hall h0 (List.mem_cons_self h0 rest)
        rw [scanHandles, if_neg (notInner_of_notOuter h0out), if_neg h0out]
        exact ih (k + 1) p (fun h hm => hall h (List.mem_cons_of_mem h0 hm))
  have hscan : ∀ (hs : List (Pt K)) (k : Nat) (p : Pt K) (i : Nat) (h : Pt K),
      hs.get? i = some h →
      (∀ (j : Nat) (h2 : Pt K), j < i → hs.get? j = some h2 →
        ¬ dist2 p h2 ≤ rotationOuter ^ 2) →
      ((dist2 p h ≤ handleHitRadius ^ 2 →
          scanHandles hs k p = some (DragMode.resize (k + i))) ∧
       (¬ dist2 p h ≤ handleHitRadius ^ 2 → dist2 p h ≤ rotationOuter ^ 2 →
          scanHandles hs k p = some DragMode.rotate)) := by
    intro hs
    induction hs with
    | nil => intro k p i h hget; simp at hget
    | cons h0 rest ih =>
        intro k p i h hget hprev
        cases i with
        | zero =>
            have hh : h0 = h := by simpa using hget
            subst hh
            constructor
            · intro hin
              rw [scanHandles, if_pos hin, Nat.add_zero]
            · intro hnin hout
              rw [scanHandles, if_neg hnin, if_pos hout]
        | succ n =>
            have h0out : ¬ dist2 p h0 ≤ rotationOuter ^ 2 :=
              hprev 0 h0 (Nat.succ_pos n) rfl
            have hget2 : rest.get? n = some h := by simpa using hget
            have hprev2 : ∀ (j : Nat) (h2 : Pt K), j < n → rest.get? j = some h2 →
                ¬ dist2 p h2 ≤ rotationOuter ^ 2 := by
              intro j h2 hj hg
              exact hprev (j + 1) h2 (Nat.succ_lt_succ hj) (by simpa using hg)
            have step : scanHandles (h0 :: rest) k p = scanHandles rest (k + 1) p := by
              rw [scanHandles, if_neg (notInner_of_notOuter h0out), if_neg h0out]
            obtain ⟨ha, hb⟩ := ih (k + 1) p n h hget2 hprev2
            constructor
            · intro hin
              rw [step, ha hin]
              congr 1
              congr 1
              omega
            · intro hnin hout
              rw [step, hb hnin hout]
  refine ⟨hscan, fun hs p hall => hnone hs 0 p hall, ?_⟩
  intro hs p bodyHit hall
  rw [chooseDragMode]
  by_cases h4 : hs.length = 4
  · rw [if_pos h4, hnone hs 0 p hall]
  · rw [if_neg h4]

/-- C7 witness: handles far apart — a press within the inner radius of
handle 0 resizes on handle 0; a press in the annulus of handle 2 (handles
0 and 1 outside their outer zones) rotates; a press away from all handles
with a body hit moves. -/
theorem c7_first_handle_decides_witness :
    ([((0 : ℚ), 0), (200, 0), (200, 200), (0, 200)].get? 0 = some ((0 : ℚ), 0) ∧
      dist2 ((5 : ℚ), 0) ((0 : ℚ), 0) ≤ handleHitRadius ^ 2 ∧
      scanHandles [((0 : ℚ), 0), (200, 0), (200, 200), (0, 200)] 0 (5, 0) =
        some (DragMode.resize 0)) ∧
    (chooseDragMode [((0 : ℚ), 0), (200, 0), (200, 200), (0, 200)] (100, 100) true =
      some DragMode.move) := by
  constructor
  · refine ⟨rfl, by norm_num [dist2, handleHitRadius], ?_⟩
    have h := (c7_first_handle_decides.1
      [((0 : ℚ), 0), (200, 0), (200, 200), (0, 200)] 0 (5, 0) 0 ((0 : ℚ), 0)
      rfl (by intro j h2 hj hg; omega)).1 (by norm_num [dist2, handleHitRadius])
    simpa using h
  · refine c7_first_handle_decides.2.2
      [((0 : ℚ), 0), (200, 0), (200, 200), (0, 200)] (100, 100) true ?_
    intro h hm
    fin_cases hm <;> norm_num [dist2, rotationOuter]

/-- Flattened points of a command sequence split at the head command. -/
theorem pathPoints_cons (c : PathCmd K) (rest : List (PathCmd K)) :
    pathPoints (c :: rest) = flattenCmd c ++ pathPoints rest := by
  simp [pathPoints]

/-- Replacing the `i`-th flattened point of one command replaces exactly
that entry of its flattening, preserving the type tag. -/
theorem flattenCmd_setPointInCmd (c : PathCmd K) (i : Nat) (q : Pt K) (tg : PointTag)
    (ps : Pt K) (h : (flattenCmd c)[i]? = some (tg, ps)) :
    flattenCmd (setPointInCmd c i q) = (flattenCmd c).set i (tg, q) := by
  cases c with
  | moveTo p =>
      match i, h with
      | 0, h =>
          simp only [flattenCmd, List.getElem?_cons_zero, Option.some.injEq, Prod.mk.injEq] at h
          obtain ⟨h1, h2⟩ := h
          subst h1
          rfl
  | lineTo p =>
      match i, h with
      | 0, h =>
          simp only [flattenCmd, List.getElem?_cons_zero, Option.some.injEq, Prod.mk.injEq] at h
          obtain ⟨h1, h2⟩ := h
          subst h1
          rfl
  | cubicBezierTo c1 c2 t =>
      match i, h with
      | 0, h =>
          simp only [flattenCmd, List.getElem?_cons_zero, Option.some.injEq, Prod.mk.injEq] at h
          obtain ⟨h1, h2⟩ := h
          subst h1
          rfl
      | 1, h =>
          simp only [flattenCmd, List.getElem?_cons_succ, List.getElem?_cons_zero,
            Option.some.injEq, Prod.mk.injEq] at h
          obtain ⟨h1, h2⟩ := h
          subst h1
          rfl
      | 2, h =>
          simp only [flattenCmd, List.getElem?_cons_succ, List.getElem?_cons_zero,
            Option.some.injEq, Prod.mk.injEq] at h
          obtain ⟨h1, h2⟩ := h
          subst h1
          rfl
  | closePath =>
      simp [flattenCmd] at h

/-- The command-walk `updateCmds` fails exactly on out-of-range indices; in range it
replaces exactly the addressed flattened point, preserving its tag. -/
theorem updateCmds_spec :
    ∀ (cmds : List (PathCmd K)) (i : Nat) (q : Pt K),
      ((pathPoints cmds).length ≤ i → updateCmds cmds i q = none) ∧
      (∀ (tg : PointTag) (ps : Pt K), (pathPoints cmds)[i]? = some (tg, ps) →
        ∃ cmds2, updateCmds cmds i q = some cmds2 ∧
          pathPoints cmds2 = (pathPoints cmds).set i (tg, q)) := by
  intro cmds
  induction cmds with
  | nil =>
      intro i q
      refine ⟨fun _ => rfl, fun tg ps h => ?_⟩
      simp [pathPoints] at h
  | cons c rest ih =>
      intro i q
      by_cases hin : i < (flattenCmd c).length
      · constructor
        · intro hlen
          exfalso
          rw [pathPoints_cons, List.length_append] at hlen
          omega
        · intro tg ps h
          rw [pathPoints_cons, List.getElem?_append_left hin] at h
          refine ⟨setPointInCmd c i q :: rest, ?_, ?_⟩
          · rw [updateCmds, if_pos hin]
          · rw [pathPoints_cons, pathPoints_cons,
              flattenCmd_setPointInCmd c i q tg ps h, List.set_append, if_pos hin]
      · constructor
        · intro hlen
          rw [updateCmds, if_neg hin]
          have : (pathPoints rest).length ≤ i - (flattenCmd c).length := by
            rw [pathPoints_cons, List.length_append] at hlen
            omega
          rw [(ih (i - (flattenCmd c).length) q).1 this]
          rfl
        · intro tg ps h
          rw [pathPoints_cons, List.getElem?_append_right (by omega)] at h
          obtain ⟨cmds2, hup, hpp⟩ := (ih (i - (flattenCmd c).length) q).2 tg ps h
          refine ⟨c :: cmds2, ?_, ?_⟩
          · rw [updateCmds, if_neg hin, hup]
            rfl
          · rw [pathPoints_cons, pathPoints_cons, hpp, List.set_append, if_neg hin]

/-- Mapping an id-guarded replacement over the scene moves through `find?`
on that id test: the found object is replaced, everything before it is
untouched. -/
theorem find?_map_guarded (oid : String) (φ : VectorObject K → VectorObject K)
    (hid : ∀ o, (φ o).id = o.id) (hskip : ∀ o, ¬(o.id == oid) = true → φ o = o) :
    ∀ (s : Scene K) (o : VectorObject K),
      s.find? (fun o2 => o2.id == oid) = some o →
      (s.map φ).find? (fun o2 => o2.id == oid) = some (φ o) := by
  intro s
  induction s with
  | nil => intro o h; simp at h
  | cons a rest ih =>
      intro o h
      by_cases ha : (a.id == oid) = true
      · rw [List.find?_cons_of_pos rest ha] at h
        have hoa : a = o := by simpa using h
        subst hoa
        rw [List.map_cons]
        exact List.find?_cons_of_pos _ (by rw [hid a]; exact ha)
      · rw [List.find?_cons_of_neg rest ha] at h
        rw [List.map_cons, hskip a ha]
        refine Eq.trans ?_ (ih o h)
        exact List.find?_cons_of_neg _ ha

/-- C8: `update_path_point(id, index, new_position)` with an out-of-range
index for the object's flattened point list leaves the scene unmodified
(so `get_path_points` is identical before and after) and reports
`InvalidIndex` whenever the id resolves to an object; with an in-range
index it succeeds and mutates exactly the anchor or handle at that index,
preserving its type tag. -/
theorem c8_update_path_point :
    (∀ (s : Scene K) (oid : String) (i : Nat) (q : Pt K),
      (getPathPoints s oid).length ≤ i →
      (updatePathPoint s oid i q).1 = s ∧
      getPathPoints (updatePathPoint s oid i q).1 oid = getPathPoints s oid) ∧
    (∀ (s : Scene K) (oid : String) (i : Nat) (q : Pt K) (o : VectorObject K),
      s.find? (fun o2 => o2.id == oid) = some o →
      (getPathPoints s oid).length ≤ i →
      (updatePathPoint s oid i q).2 = some GeomError.InvalidIndex) ∧
    (∀ (s : Scene K) (oid : String) (i : Nat) (q : Pt K) (tg : PointTag) (ps : Pt K),
      (getPathPoints s oid)[i]? = some (tg, ps) →
      (updatePathPoint s oid i q).2 = none ∧
      getPathPoints (updatePathPoint s oid i q).1 oid =
        (getPathPoints s oid).set i (tg, q)) := by
  refine ⟨?_, ?_, ?_⟩
  · intro s oid i q hlen
    suffices hfst : (updatePathPoint s oid i q).1 = s by
      exact ⟨hfst, by rw [hfst]⟩
    cases hf : s.find? (fun o2 => o2.id == oid) with
    | none => simp only [updatePathPoint, hf]
    | some o =>
        cases hg : o.geometry with
        | path cmds =>
            have hpts : getPathPoints s oid = pathPoints cmds := by
              simp only [getPathPoints, hf, hg]
            rw [hpts] at hlen
            simp only [updatePathPoint, hf, hg, (updateCmds_spec cmds i q).1 hlen]
        | rectangle w h => simp only [updatePathPoint, hf, hg]
        | ellipse rx ry => simp only [updatePathPoint, hf, hg]
  · intro s oid i q o hf hlen
    cases hg : o.geometry with
    | path cmds =>
        have hpts : getPathPoints s oid = pathPoints cmds := by
          simp only [getPathPoints, hf, hg]
        rw [hpts] at hlen
        simp only [updatePathPoint, hf, hg, (updateCmds_spec cmds i q).1 hlen]
    | rectangle w h => simp only [updatePathPoint, hf, hg]
    | ellipse rx ry => simp only [updatePathPoint, hf, hg]
  · intro s oid i q tg ps h
    cases hf : s.find? (fun o2 => o2.id == oid) with
    | none =>
        exfalso
        simp only [getPathPoints, hf] at h
        simp at h
    | some o =>
        cases hg : o.geometry with
        | rectangle w hh =>
            exfalso
            simp only [getPathPoints, hf, hg] at h
            simp at h
        | ellipse rx ry =>
            exfalso
            simp only [getPathPoints, hf, hg] at h
            simp at h
        | path cmds =>
            have hpts : getPathPoints s oid = pathPoints cmds := by
              simp only [getPathPoints, hf, hg]
            rw [hpts] at h
            obtain ⟨cmds2, hup, hpp⟩ := (updateCmds_spec cmds i q).2 tg ps h
            have hmap := find?_map_guarded oid
              (fun o2 => if o2.id == oid then { o2 with geometry := Geometry.path cmds2 }
                else o2)
              (fun o2 => by by_cases h2 : (o2.id == oid) = true <;> simp [h2])
              (fun o2 h2 => by simp [h2]) s o hf
            simp only [if_pos (List.find?_some hf)] at hmap
            constructor
            · simp only [updatePathPoint, hf, hg, hup]
            · simp only [updatePathPoint, hf, hg, hup]
              simp only [getPathPoints, hmap, hf, hg]
              exact hpp

/-- C8 witness: a one-segment path over ℚ — index 4 is out of range for the
four flattened points and leaves the scene identical; index 1 replaces the
second control handle in place, keeping its tag. -/
theorem c8_update_path_point_witness :
    (getPathPoints
        ([⟨"P", Geometry.path [PathCmd.moveTo ((0 : ℚ), 0),
            PathCmd.cubicBezierTo (1, 1) (2, 2) (3, 3)], translation 0 0, defaultStyle⟩] :
          Scene ℚ) ("P")).length ≤ 4 ∧
    (updatePathPoint
        ([⟨"P", Geometry.path [PathCmd.moveTo ((0 : ℚ), 0),
            PathCmd.cubicBezierTo (1, 1) (2, 2) (3, 3)], translation 0 0, defaultStyle⟩] :
          Scene ℚ) ("P") 4 (9, 9)).1 =
      [⟨"P", Geometry.path [PathCmd.moveTo ((0 : ℚ), 0),
          PathCmd.cubicBezierTo (1, 1) (2, 2) (3, 3)], translation 0 0, defaultStyle⟩] ∧
    (updatePathPoint
        ([⟨"P", Geometry.path [PathCmd.moveTo ((0 : ℚ), 0),
            PathCmd.cubicBezierTo (1, 1) (2, 2) (3, 3)], translation 0 0, defaultStyle⟩] :
          Scene ℚ) ("P") 4 (9, 9)).2 = some GeomError.InvalidIndex ∧
    getPathPoints
        (updatePathPoint
          ([⟨"P", Geometry.path [PathCmd.moveTo ((0 : ℚ), 0),
              PathCmd.cubicBezierTo (1, 1) (2, 2) (3, 3)], translation 0 0, defaultStyle⟩] :
            Scene ℚ) ("P") 1 (9, 9)).1 ("P") =
      [(PointTag.move, ((0 : ℚ), 0)), (PointTag.control, (9, 9)),
        (PointTag.control, (2, 2)), (PointTag.curve, (3, 3))] := by
  refine ⟨by decide, ?_, ?_, ?_⟩
  · exact (c8_update_path_point.1 _ ("P") 4 (9, 9) (by decide)).1
  · exact c8_update_path_point.2.1 _ ("P") 4 (9, 9) _ rfl (by decide)
  · have h := (c8_update_path_point.2.2
      ([⟨"P", Geometry.path [PathCmd.moveTo ((0 : ℚ), 0),
          PathCmd.cubicBezierTo (1, 1) (2, 2) (3, 3)], translation 0 0, defaultStyle⟩] :
        Scene ℚ) ("P") 1 ((9 : ℚ), 9) PointTag.control (1, 1) (by decide)).2
    rw [h]
    decide

/-- C9 counterexample: the matrix scaling uniformly by 100000 has
determinant 10^10, far above epsilon, so the claim's hypothesis holds; yet
its inverse has determinant 10^-10 < epsilon, so `invert(invert(M))` fails
with `DegenerateTransform` instead of returning anything close to M. -/
theorem c9_counterexample :
    ¬ |det bigM| < eps ∧
    invert bigM = Except.ok bigMInv ∧
    invert bigMInv = Except.error GeomError.DegenerateTransform := by
  refine ⟨by norm_num [det, bigM, eps], ?_, ?_⟩
  · rw [invert, if_neg (by norm_num [det, bigM, eps])]
    simp only [bigM, bigMInv, det, Except.ok.injEq, Mat.mk.injEq]
    norm_num
  · rw [invert, if_pos ?_]
    rw [show det bigMInv = 1 / 10000000000 from by norm_num [det, bigMInv],
      abs_of_pos (by norm_num : (0 : ℚ) < 1 / 10000000000)]
    norm_num [eps]

/-- The determinant of the inverse produced by `invert` is the reciprocal
of the original determinant. -/
theorem det_invert_formula (a b c d tx ty : K) (h : a * d - b * c ≠ 0) :
    det (⟨d / (a * d - b * c), -b / (a * d - b * c), -c / (a * d - b * c),
      a / (a * d - b * c), (c * ty - d * tx) / (a * d - b * c),
      (b * tx - a * ty) / (a * d - b * c)⟩ : Mat K) = 1 / (a * d - b * c) := by
  simp only [det]
  field_simp
  try ring
  try exact Or.inl trivial

/-- C9 (amended): `invert(m)` fails with `DegenerateTransform` exactly when
|det m| < epsilon; and whenever |det M| is not below epsilon, `invert(M)`
succeeds, and — provided the inverse's own determinant 1/det(M) is also not
below epsilon (equivalently |det M| ≤ 1/epsilon) — `invert(invert(M))`
recovers M exactly (so in particular each of the six components is within
any floating tolerance of the original). -/
theorem c9_invert_characterization :
    ∀ m : Mat K,
      (invert m = Except.error GeomError.DegenerateTransform ↔ |det m| < eps) ∧
      (¬ |det m| < eps →
        ∃ mi, invert m = Except.ok mi ∧
          (¬ |det mi| < eps → invert mi = Except.ok m)) := by
  intro m
  constructor
  · constructor
    · intro h
      by_contra hnd
      rw [invert, if_neg hnd] at h
      exact absurd h (by simp)
    · intro h
      rw [invert, if_pos h]
  · intro h
    have hd : det m ≠ 0 := by
      intro h0
      apply h
      rw [h0]
      norm_num [eps]
    refine ⟨_, by rw [invert, if_neg h], ?_⟩
    intro h2
    rw [invert, if_neg h2]
    congr 1
    cases m with
    | mk a b c d tx ty =>
        have hd0 : a * d - b * c ≠ 0 := hd
        have hdet2 := det_invert_formula a b c d tx ty hd0
        simp only [det] at hdet2 ⊢
        rw [Mat.mk.injEq]
        rw [hdet2]
        refine ⟨?_, ?_, ?_, ?_, ?_, ?_⟩ <;> (field_simp; try ring) <;>
          try exact Or.inl trivial

/-- C9 witness: the scaling by 2 over ℚ — determinant 4, inverse
determinant 1/4, both clear of epsilon; `invert` twice recovers the
original exactly. -/
theorem c9_invert_characterization_witness :
    ¬ |det (⟨2, 0, 0, 2, 3, 4⟩ : Mat ℚ)| < eps ∧
    (invert (⟨2, 0, 0, 2, 3, 4⟩ : Mat ℚ) = Except.error GeomError.DegenerateTransform ↔
      |det (⟨2, 0, 0, 2, 3, 4⟩ : Mat ℚ)| < eps) ∧
    (∃ mi, invert (⟨2, 0, 0, 2, 3, 4⟩ : Mat ℚ) = Except.ok mi ∧
      (¬ |det mi| < eps → invert mi = Except.ok (⟨2, 0, 0, 2, 3, 4⟩ : Mat ℚ))) :=
  ⟨by norm_num [det, eps],
   (c9_invert_characterization (⟨2, 0, 0, 2, 3, 4⟩ : Mat ℚ)).1,
   (c9_invert_characterization (⟨2, 0, 0, 2, 3, 4⟩ : Mat ℚ)).2 (by norm_num [det, eps])⟩

/-- A successful `find?` splits the list at the first element satisfying the predicate:
everything before it fails the predicate. -/
theorem find?_split {α : Type} (f : α → Bool) :
    ∀ (l : List α) (x : α), l.find? f = some x →
      ∃ l1 l2, l = l1 ++ x :: l2 ∧ f x = true ∧ ∀ y ∈ l1, f y = false := by
  intro l
  induction l with
  | nil => intro x h; simp at h
  | cons a rest ih =>
      intro x h
      by_cases ha : f a = true
      · rw [List.find?_cons_of_pos rest ha] at h
        obtain rfl : a = x := by simpa using h
        exact ⟨[], rest, rfl, ha, by simp⟩
      · rw [List.find?_cons_of_neg rest ha] at h
        obtain ⟨l1, l2, heq, hx, hall⟩ := ih x h
        refine ⟨a :: l1, l2, by rw [heq]; rfl, hx, ?_⟩
        intro y hy
        rcases List.mem_cons.mp hy with h1 | h2
        · subst h1
          simpa using ha
        · exact hall y h2

/-- For an object whose transform has determinant 1, the hit check maps the
point through the explicit inverse (no epsilon failure, divisions by 1). -/
theorem hitObj_unit_det (o : VectorObject K) (hdet : det o.transform = 1) (p : Pt K) :
    hitObj o p = localContains o.geometry (transformPoint
      ⟨o.transform.d, -o.transform.b, -o.transform.c, o.transform.a,
        o.transform.c * o.transform.ty - o.transform.d * o.transform.tx,
        o.transform.b * o.transform.tx - o.transform.a * o.transform.ty⟩ p) := by
  simp only [hitObj, invert, hdet]
  rw [if_neg (by norm_num [eps])]
  simp [div_one]

/-- Rectangle containment, unfolded to the four inequalities. -/
theorem localContains_rect (w h x y : K) :
    localContains (Geometry.rectangle w h) (x, y) = true ↔
      0 ≤ x ∧ x ≤ w ∧ 0 ≤ y ∧ y ≤ h := by
  simp only [localContains, Bool.and_eq_true, decide_eq_true_eq]
  tauto

/-- Rectangle non-containment, unfolded. -/
theorem localContains_rect_false (w h x y : K) :
    localContains (Geometry.rectangle w h) (x, y) = false ↔
      ¬(0 ≤ x ∧ x ≤ w ∧ 0 ≤ y ∧ y ≤ h) := by
  constructor
  · intro hf hcon
    rw [← localContains_rect w h x y] at hcon
    rw [hf] at hcon
    cases hcon
  · intro hn
    cases hb : localContains (Geometry.rectangle w h) (x, y) with
    | false => rfl
    | true => exact absurd ((localContains_rect w h x y).mp hb) hn

/-- The demo rotated rectangle's transform, written out: rotation by 45°
(cosine and sine both √2/2) about (450, 250) composed with the translation
placing the 150×100 local box. -/
theorem rotRect_transform :
    rotRect.transform = ⟨Real.sqrt 2 / 2, Real.sqrt 2 / 2, -(Real.sqrt 2 / 2),
      Real.sqrt 2 / 2, 450 - 25 * (Real.sqrt 2 / 2), 250 - 125 * (Real.sqrt 2 / 2)⟩ := by
  have hc : Real.cos ((45 : ℝ) * Real.pi / 180) = Real.sqrt 2 / 2 := by
    rw [show (45 : ℝ) * Real.pi / 180 = Real.pi / 4 by ring, Real.cos_pi_div_four]
  have hs : Real.sin ((45 : ℝ) * Real.pi / 180) = Real.sqrt 2 / 2 := by
    rw [show (45 : ℝ) * Real.pi / 180 = Real.pi / 4 by ring, Real.sin_pi_div_four]
  simp only [rotRect, addRotatedRectangle, aroundPivot, compose, translation, rotationMat,
    hc, hs]
  rw [Mat.mk.injEq]
  refine ⟨by ring, by ring, by ring, by ring, by ring, by ring⟩

/-- The rotated rectangle's transform is a rigid motion: determinant 1. -/
theorem rotRect_det : det rotRect.transform = 1 := by
  rw [rotRect_transform]
  simp only [det]
  have h2 : Real.sqrt 2 ^ 2 = 2 := Real.sq_sqrt (by norm_num)
  nlinarith [h2]

/-- The rotated rectangle is hit at its center. -/
theorem rotRect_hit_center : hitObj rotRect ((450 : ℝ), 250) = true := by
  rw [hitObj_unit_det rotRect rotRect_det, rotRect_transform,
    show rotRect.geometry = Geometry.rectangle 150 100 from rfl]
  simp only [transformPoint]
  rw [localContains_rect]
  have h2 : Real.sqrt 2 ^ 2 = 2 := Real.sq_sqrt (by norm_num)
  have hnn : (0 : ℝ) ≤ Real.sqrt 2 := Real.sqrt_nonneg 2
  refine ⟨?_, ?_, ?_, ?_⟩ <;> nlinarith [h2, hnn]

/-- The rotated rectangle is missed at the un-rotated corner (375, 200). -/
theorem rotRect_miss_corner : hitObj rotRect ((375 : ℝ), 200) = false := by
  rw [hitObj_unit_det rotRect rotRect_det, rotRect_transform,
    show rotRect.geometry = Geometry.rectangle 150 100 from rfl]
  simp only [transformPoint]
  rw [localContains_rect_false]
  intro hcon
  obtain ⟨h1, _, _, _⟩ := hcon
  have h2 : Real.sqrt 2 ^ 2 = 2 := Real.sq_sqrt (by norm_num)
  have hnn : (0 : ℝ) ≤ Real.sqrt 2 := Real.sqrt_nonneg 2
  nlinarith [h2, hnn]

/-- C1: `hit_test` iterates objects from frontmost to backmost, mapping
the point into each object's local space with the inverse of its transform
and testing local containment; it returns the first (frontmost) matching
id, and `none` when no object matches.  In particular, the 150×100
rectangle rotated 45° about its own center (450, 250) is hit at (450, 250)
and missed at (375, 200). -/
theorem c1_hit_test :
    (∀ (s : Scene K) (p : Pt K),
      (hitTest s p = none ↔ ∀ o ∈ s, hitObj o p = false) ∧
      (∀ oid, hitTest s p = some oid →
        ∃ pre o post, s = pre ++ o :: post ∧ o.id = oid ∧ hitObj o p = true ∧
          ∀ o2 ∈ post, hitObj o2 p = false)) ∧
    hitTest [rotRect] ((450 : ℝ), 250) = some ("B") ∧
    hitTest [rotRect] ((375 : ℝ), 200) = none := by
  refine ⟨?_, ?_, ?_⟩
  · intro s p
    constructor
    · simp only [hitTest, Option.map_eq_none']
      rw [List.find?_eq_none]
      constructor
      · intro h o ho
        simpa using h o (List.mem_reverse.mpr ho)
      · intro h o ho
        simpa using h o (List.mem_reverse.mp ho)
    · intro oid hsome
      rw [hitTest] at hsome
      obtain ⟨o, hfind, hid⟩ := Option.map_eq_some'.mp hsome
      obtain ⟨l1, l2, heq, hx, hall⟩ := find?_split _ s.reverse o hfind
      refine ⟨l2.reverse, o, l1.reverse, ?_, hid, hx, ?_⟩
      · have hs2 : s = (l1 ++ o :: l2).reverse := by rw [← heq, List.reverse_reverse]
        rw [hs2]
        simp [List.reverse_append]
      · intro o2 ho2
        exact hall o2 (List.mem_reverse.mp ho2)
  · have hfind : List.find? (fun o => hitObj o ((450 : ℝ), 250)) [rotRect] = some rotRect :=
      List.find?_cons_of_pos _ rotRect_hit_center
    rw [hitTest, show ([rotRect] : Scene ℝ).reverse = [rotRect] from rfl, hfind]
    rfl
  · have hneg : ¬ hitObj rotRect ((375 : ℝ), 200) = true := by
      simp [rotRect_miss_corner]
    have hfind : List.find? (fun o => hitObj o ((375 : ℝ), 200)) [rotRect] = none :=
      List.find?_cons_of_neg _ hneg
    rw [hitTest, show ([rotRect] : Scene ℝ).reverse = [rotRect] from rfl, hfind]
    rfl

/-- C1 witness: the `none` characterization applied to the empty scene and
the frontmost-first characterization applied to a one-object ℚ scene. -/
theorem c1_hit_test_witness :
    hitTest ([] : Scene ℚ) ((0 : ℚ), 0) = none ∧
    (∃ pre o post,
      ([⟨"A", Geometry.rectangle 10 10, translation 0 0, defaultStyle⟩] : Scene ℚ) =
        pre ++ o :: post ∧
      o.id = "A" ∧ hitObj o ((5 : ℚ), 5) = true ∧ ∀ o2 ∈ post, hitObj o2 ((5 : ℚ), 5) = false) := by
  constructor
  · exact (c1_hit_test.1 ([] : Scene ℚ) ((0 : ℚ), 0)).1.mpr (by intro o ho; cases ho)
  · refine (c1_hit_test.1
      ([⟨"A", Geometry.rectangle 10 10, translation 0 0, defaultStyle⟩] : Scene ℚ)
      ((5 : ℚ), 5)).2 ("A") ?_
    have hhit : hitObj
        (⟨"A", Geometry.rectangle 10 10, translation 0 0, defaultStyle⟩ : VectorObject ℚ)
        ((5 : ℚ), 5) = true := by
      rw [hitObj_unit_det _ (by norm_num [det, translation]) _]
      rw [show (⟨"A", Geometry.rectangle 10 10, translation 0 0, defaultStyle⟩ :
          VectorObject ℚ).geometry = Geometry.rectangle 10 10 from rfl]
      simp only [translation, transformPoint]
      rw [localContains_rect]
      norm_num
    have hfind : List.find? (fun o => hitObj o ((5 : ℚ), 5))
        [(⟨"A", Geometry.rectangle 10 10, translation 0 0, defaultStyle⟩ : VectorObject ℚ)] =
        some ⟨"A", Geometry.rectangle 10 10, translation 0 0, defaultStyle⟩ :=
      List.find?_cons_of_pos _ hhit
    rw [hitTest, show ([(⟨"A", Geometry.rectangle 10 10, translation 0 0, defaultStyle⟩ :
        VectorObject ℚ)] : Scene ℚ).reverse =
        [⟨"A", Geometry.rectangle 10 10, translation 0 0, defaultStyle⟩] from rfl, hfind]
    rfl

end VecEd
